import Mathlib

/-!
Verification development for the `url-shortener` service (Go).

The definitions below are a shallow embedding of the repository's code:

* `models.URL` / `URL.IsExpired`        — internal/models (part_004, second file)
* `service.URLService.Resolve`          — internal/service (part_003)
* `service.URLService.Create`           — internal/service (part_003)
* `service.generateRandomCode` etc.     — internal/service (part_003)
* `repository.contains` etc.            — internal/repository (part_004)
* `middleware.RateLimiter.Middleware`   — internal/middleware (part_002)
* `database.RedisDB.IncrementRateLimit` — internal/database (part_002, second file)
* `service.APIKeyService.ValidateKey`   — internal/service (part_003)

Modelling conventions:

* Machine instants (`time.Time`) are embedded as `Int` Unix seconds; Go's
  `time.Now().After(t)` becomes strict `now > t`.
* Go strings are Lean `String`s; where Go's `len` counts UTF-8 bytes we use
  `goLen` (the byte count), and where Go ranges over runes we use `String.data`.
* External effects (the Redis cache, the Postgres store, `crypto/rand`) are
  passed in explicitly as oracles: a cache lookup outcome, a store lookup
  outcome, a per-attempt random byte supply, and an exists-check answer
  function, so every service function is a pure Lean function of its inputs.
-/

namespace Shortener

/-- Embedding of Go's `len` on strings: the number of UTF-8 bytes. -/
def goLen (s : String) : Nat := (s.data.map Char.utf8Size).sum

/-! ## Domain model (internal/models) -/

/-- `models.URL`: a shortened URL record.  `expiresAt` is the optional
expiration instant (`*time.Time` embedded as `Option Int` Unix seconds). -/
structure URL where
  shortCode : String
  originalURL : String
  clicks : Nat
  expiresAt : Option Int
  deriving Repr, DecidableEq

/-- `URL.IsExpired`: false when no expiration is set, otherwise
`time.Now().After(*u.ExpiresAt)`, i.e. strictly `now > expiresAt`. -/
def URL.IsExpired (u : URL) (now : Int) : Bool :=
  match u.expiresAt with
  | none => false
  | some t => decide (now > t)

/-! ## Resolution engine (service.URLService.Resolve) -/

/-- Outcome of `getFromCache`: a hit, a miss (`nil, nil`), or a cache error
(`nil, err`). -/
inductive CacheLookup where
  | hit (u : URL)
  | miss
  | cacheError
  deriving Repr, DecidableEq

/-- Outcome of `repo.GetByShortCode`: a row, `ErrNotFound`, or another
store error. -/
inductive StoreLookup where
  | found (u : URL)
  | notFound
  | storeError
  deriving Repr, DecidableEq

/-- The URL value `Resolve` sees after step 1: `getFromCache` returns the
record on a hit and `nil` both on a miss and on a cache error (the error is
only logged). -/
def getFromCacheResult : CacheLookup → Option URL
  | .hit u => some u
  | .miss => none
  | .cacheError => none

/-- Result of `URLService.Resolve` (the service-level errors
`ErrURLNotFound`, `ErrURLExpired`, and a wrapped internal error). -/
inductive ResolveResult where
  | ok (dest : String)
  | notFound
  | expired
  | internalError
  deriving Repr, DecidableEq

/-- `URLService.Resolve`: cache first; on `nil` fall through to the store
(`ErrNotFound` → `ErrURLNotFound`, other error → wrapped failure); then the
expiration check on whichever record was obtained; then the destination. -/
def URLService.Resolve (c : CacheLookup) (s : StoreLookup) (now : Int) :
    ResolveResult :=
  let step : Except ResolveResult URL :=
    match getFromCacheResult c with
    | some u => .ok u
    | none =>
      match s with
      | .found u => .ok u
      | .notFound => .error .notFound
      | .storeError => .error .internalError
  match step with
  | .error e => e
  | .ok u => if u.IsExpired now then .expired else .ok u.originalURL

/-- The record `Resolve` operates on, whichever source produced it. -/
def resolvedRecord (c : CacheLookup) (s : StoreLookup) : Option URL :=
  match getFromCacheResult c with
  | some u => some u
  | none =>
    match s with
    | .found u => some u
    | _ => none

/-! ## Validation helpers (service, part_003) -/

/-- Embedding of Go's `strings.HasPrefix(s, pat)`: the leading bytes of
`s` equal `pat`'s bytes.  For the ASCII patterns used in this code a byte
prefix is the same as a rune prefix (a multi-byte rune never starts with
an ASCII byte), so the test is taken on rune lists. -/
def hasPrefixChars (pat s : List Char) : Bool :=
  s.take pat.length == pat

/-- `service.isValidURL`: must start with `http://` or `https://` and have a
byte length between 10 and 2083. -/
def isValidURL (rawURL : String) : Bool :=
  if !(hasPrefixChars (("http://" : String)).data rawURL.data ||
      hasPrefixChars (("https://" : String)).data rawURL.data) then
    false
  else if goLen rawURL < 10 || goLen rawURL > 2083 then
    false
  else
    true

/-- Embedding of Go's `strings.ToLower` as used on custom aliases: the
per-rune lowercase map (for the ASCII runes that can pass the
alphanumeric validation this is exactly Go's mapping). -/
def toLowerStr (s : String) : String :=
  ⟨s.data.map Char.toLower⟩

/-- The per-rune test in `service.isValidShortCode`:
`isLetter || isNumber` for ASCII letters and digits. -/
def isAlphanumChar (c : Char) : Bool :=
  let isLetter := (decide ('a' ≤ c) && decide (c ≤ 'z')) ||
    (decide ('A' ≤ c) && decide (c ≤ 'Z'))
  let isNumber := decide ('0' ≤ c) && decide (c ≤ '9')
  isLetter || isNumber

/-- `service.isValidShortCode`: byte length in `[3, maxLength]` and every
rune alphanumeric. -/
def isValidShortCode (code : String) (maxLength : Nat) : Bool :=
  if goLen code < 3 || goLen code > maxLength then
    false
  else
    code.data.all isAlphanumChar

/-! ## Short code generation (service, part_003) -/

/-- `service.base62Chars`: digits, then uppercase, then lowercase. -/
def base62Chars : String :=
  "0123456789ABCDEFGHIJKLMNOPQRSTUVWXYZabcdefghijklmnopqrstuvwxyz"

/-- One step of the loop in `service.generateRandomCode`:
`base62Chars[b % 62]` for a random byte `b`. -/
def base62Char (b : Nat) : Char :=
  base62Chars.data.getD (b % 62) '0'

/-- `service.generateRandomCode`: map each random byte (supplied here as the
oracle's list, standing for a successful `crypto/rand.Read` of `length`
bytes) to `base62Chars[b % 62]`. -/
def generateRandomCode (bytes : List Nat) : String :=
  ⟨bytes.map base62Char⟩

/-- Failures of `service.generateUniqueCode`: the terminal
"failed to generate unique code after retries", or a propagated
`repo.Exists` error. -/
inductive GenError where
  | exhausted
  | storeError
  deriving Repr, DecidableEq

/-- The retry loop of `service.generateUniqueCode`, with the remaining
retry budget made explicit.  `draws i` is the byte sequence `crypto/rand`
supplies on attempt `i`; `exCheck code` is `repo.Exists`' answer
(`none` = store error). -/
def generateUniqueCodeLoop (draws : Nat → List Nat)
    (exCheck : String → Option Bool) : Nat → Nat → Except GenError String
  | _, 0 => .error .exhausted
  | i, fuel + 1 =>
    match exCheck (generateRandomCode (draws i)) with
    | none => .error .storeError
    | some true => generateUniqueCodeLoop draws exCheck (i + 1) fuel
    | some false => .ok (generateRandomCode (draws i))

/-- `service.generateUniqueCode`: `maxRetries = 5` attempts. -/
def generateUniqueCode (draws : Nat → List Nat)
    (exCheck : String → Option Bool) : Except GenError String :=
  generateUniqueCodeLoop draws exCheck 0 5

/-! ## Repository helpers (repository, part_004) -/

/-- `repository.containsMiddle`: scan every window `s[i:i+len(substr)]`
for `i` from `0` to `len(s) - len(substr)` inclusive (only reached when
`len(s) > len(substr)`). -/
def containsMiddle (s substr : List Char) : Bool :=
  (List.range (s.length - substr.length + 1)).any
    (fun i => (s.drop i).take substr.length == substr)

/-- `repository.contains`: hand-rolled substring test — equality, prefix
window, suffix window, or an interior window. -/
def contains (s substr : List Char) : Bool :=
  decide (s.length ≥ substr.length) &&
    (s == substr ||
      (decide (s.length > substr.length) &&
        (s.take substr.length == substr ||
          s.drop (s.length - substr.length) == substr ||
          containsMiddle s substr)))

/-- `repository.isDuplicateKeyError` on a non-nil error with message
`msg`: the message contains `23505` or `duplicate key`. -/
def isDuplicateKeyError (msg : String) : Bool :=
  contains msg.data (("23505" : String).data) ||
    contains msg.data (("duplicate key" : String).data)

/-- Outcome of `repository.URLRepository.Create` as seen by the service:
success, `ErrAlreadyExists`, or a wrapped failure. -/
inductive RepoWrite where
  | ok
  | alreadyExists
  | otherError (msg : String)
  deriving Repr, DecidableEq

/-- `repository.URLRepository.Create`: `dbErr` is the driver error of the
`INSERT` (`none` = success).  A duplicate-key error becomes
`ErrAlreadyExists`; any other error is wrapped and returned. -/
def URLRepository.Create (dbErr : Option String) : RepoWrite :=
  match dbErr with
  | none => .ok
  | some msg =>
    if isDuplicateKeyError msg then .alreadyExists else .otherError msg

/-! ## Service-level create (service.URLService.Create) -/

/-- `config.ShortenerConfig`, the two fields the service reads; the
environment-variable defaults are 8 and 16. -/
structure ShortenerConfig where
  DefaultCodeLength : Nat
  MaxCustomLength : Nat
  deriving Repr, DecidableEq

/-- The defaults from `config.Load` (`SHORT_CODE_LENGTH` 8,
`SHORT_CODE_MAX_LENGTH` 16). -/
def defaultShortenerConfig : ShortenerConfig := ⟨8, 16⟩

/-- `models.CreateURLRequest` (the fields `Create` reads). -/
structure CreateURLRequest where
  url : String
  customAlias : String
  expiresIn : Int
  deriving Repr, DecidableEq

/-- Result of `URLService.Create`: the response, or one of
`ErrInvalidURL`, `ErrInvalidCode`, `ErrCodeTaken`, the wrapped
`generateUniqueCode` failure, or a wrapped store failure. -/
inductive CreateOutcome where
  | success (shortCode : String) (expiresAt : Option Int)
  | invalidURL
  | invalidCode
  | codeTaken
  | generationFailed (e : GenError)
  | internalError
  deriving Repr, DecidableEq

/-- The two failure modes of step 2 of `Create` (determine short code):
the alias validation failure (`ErrInvalidCode`), or a wrapped
`generateUniqueCode` failure. -/
inductive CodePhaseError where
  | invalidCode
  | generationFailed (e : GenError)
  deriving Repr, DecidableEq

/-- Step 2 of `URLService.Create`: with a custom alias, lower-case it and
validate it against `cfg.MaxCustomLength`; otherwise draw a fresh unique
code. -/
def createCodeRes (cfg : ShortenerConfig) (req : CreateURLRequest)
    (draws : Nat → List Nat) (exCheck : String → Option Bool) :
    Except CodePhaseError String :=
  if req.customAlias ≠ "" then
    if !isValidShortCode (toLowerStr req.customAlias)
        cfg.MaxCustomLength then
      .error .invalidCode
    else
      .ok (toLowerStr req.customAlias)
  else
    match generateUniqueCode draws exCheck with
    | .error e => .error (.generationFailed e)
    | .ok code => .ok code

/-- `URLService.Create`.  Oracles: `draws i` is the byte buffer
`crypto/rand.Read` fills on generation attempt `i` (its size is
`cfg.DefaultCodeLength` in the running system; theorems state that as a
hypothesis); `exCheck code` is `repo.Exists`' answer (`none` = store
error); `dbErr` is the driver error of the `INSERT` in `repo.Create`. -/
def URLService.Create (cfg : ShortenerConfig) (req : CreateURLRequest)
    (draws : Nat → List Nat) (exCheck : String → Option Bool)
    (dbErr : Option String) (now : Int) : CreateOutcome :=
  if !isValidURL req.url then .invalidURL
  else
    match createCodeRes cfg req draws exCheck with
    | .error .invalidCode => .invalidCode
    | .error (.generationFailed e) => .generationFailed e
    | .ok shortCode =>
      match exCheck shortCode with
      | none => .internalError
      | some true => .codeTaken
      | some false =>
        match URLRepository.Create dbErr with
        | .ok => .success shortCode
            (if req.expiresIn > 0 then some (now + req.expiresIn) else none)
        | .alreadyExists => .codeTaken
        | .otherError _ => .internalError

/-! ## Rate limiter (middleware + database, part_002) -/

/-- `database.RateLimitKey`: `ratelimit:{identifier}:{window.Unix()/60}`;
Go's `int64` division truncates toward zero. -/
def RateLimitKey (identifier : String) (windowUnix : Int) : String :=
  "ratelimit:" ++ identifier ++ ":" ++ toString (Int.tdiv windowUnix 60)

/-- `database.RedisDB.IncrementRateLimit`: atomic `INCR`; returns the
updated counter state and the new count.  (The `EXPIRE` on a fresh window
only bounds the key's lifetime and is not part of the counter value.) -/
def IncrementRateLimit (counters : String → Nat) (key : String) :
    (String → Nat) × Nat :=
  let newCount := counters key + 1
  (fun k => if k = key then newCount else counters k, newCount)

/-- The response-relevant outcome of one pass through
`middleware.RateLimiter.Middleware`: whether the chain continues, and the
`X-RateLimit-*` header values when they are set. -/
structure RateLimitOutcome where
  allowed : Bool
  limitHeader : Option Int
  remainingHeader : Option Int
  resetHeader : Option Int
  deriving Repr, DecidableEq

/-- One request through `middleware.RateLimiter.Middleware`.
`windowStart` is `time.Now().Truncate(windowSize).Unix()`;
`windowSize` is in seconds (`time.Minute` = 60); `redisOK = false` models
`IncrementRateLimit` returning an error, in which case the middleware
calls `c.Next()` with no headers (fail open) and the true counter state is
unchanged by this request.  Otherwise: set the three headers and reject
exactly when `int(count) > limit`. -/
def RateLimiter.Middleware (limit : Int) (windowStart windowSize : Int)
    (counters : String → Nat) (identifier : String) (redisOK : Bool) :
    (String → Nat) × RateLimitOutcome :=
  let key := RateLimitKey identifier windowStart
  if !redisOK then
    (counters, ⟨true, none, none, none⟩)
  else
    let res := IncrementRateLimit counters key
    let count : Int := res.2
    (res.1,
      ⟨decide (count ≤ limit), some limit, some (max 0 (limit - count)),
        some (windowStart + windowSize)⟩)

/-! ## API key authentication (service + repository) -/

/-- `models.APIKey` (the fields the lookup touches). -/
structure APIKey where
  id : Nat
  keyHash : String
  name : String
  rateLimit : Int
  isActive : Bool
  deriving Repr, DecidableEq

/-- `repository.APIKeyRepository.GetByKeyHash`:
`SELECT ... WHERE key_hash = $1 AND is_active = true`; `QueryRow` yields
the first matching row, `ErrNoRows` becomes `ErrNotFound` (`none`). -/
def APIKeyRepository.GetByKeyHash (table : List APIKey) (keyHash : String) :
    Option APIKey :=
  table.find? (fun k => k.keyHash == keyHash && k.isActive)

/-- `service.APIKeyService.ValidateKey`: hash the raw key with
`hashAPIKey` (the SHA-256 hex digest, embedded as the opaque function
parameter `hashFn`, since `crypto/sha256` is library code) and look the
hash up; `ErrNotFound` becomes `(nil, nil)` — no record, no error. -/
def APIKeyService.ValidateKey (hashFn : String → String)
    (table : List APIKey) (rawKey : String) : Option APIKey :=
  APIKeyRepository.GetByKeyHash table (hashFn rawKey)

/-! ## Expiration sweep (repository.URLRepository.DeleteExpired) -/

/-- The `WHERE` predicate of `URLRepository.DeleteExpired`:
`expires_at IS NOT NULL AND expires_at < $1`. -/
def deleteExpiredPred (now : Int) (u : URL) : Bool :=
  match u.expiresAt with
  | none => false
  | some t => decide (t < now)

/-- `repository.URLRepository.DeleteExpired` over a table of rows: the
surviving rows, and the deleted row count (`RowsAffected`). -/
def URLRepository.DeleteExpired (table : List URL) (now : Int) :
    List URL × Nat :=
  (table.filter (fun u => !deleteExpiredPred now u),
   (table.filter (deleteExpiredPred now)).length)

/-! ## Helper lemmas -/

/-- Helper: `Resolve` yields `expired` exactly when the record it obtained
is expired. -/
lemma resolve_eq_expired_iff (c : CacheLookup) (s : StoreLookup) (now : Int) :
    URLService.Resolve c s now = .expired ↔
      ∃ u, resolvedRecord c s = some u ∧ u.IsExpired now = true := by
  cases c <;> cases s <;>
    simp only [URLService.Resolve, resolvedRecord, getFromCacheResult] <;>
    constructor <;> (try split) <;> simp_all

/-- Helper: a successful `Resolve` comes from an unexpired obtained record
and returns its destination. -/
lemma resolve_eq_ok_spec (c : CacheLookup) (s : StoreLookup) (now : Int)
    (d : String) (hok : URLService.Resolve c s now = .ok d) :
    ∃ u, resolvedRecord c s = some u ∧ u.IsExpired now = false ∧
      d = u.originalURL := by
  cases c <;> cases s <;>
    revert hok <;>
    simp only [URLService.Resolve, resolvedRecord, getFromCacheResult] <;>
    (try split) <;> simp_all

/-- Helper: the deletion predicate of the sweep fires exactly on a set,
past expiration instant. -/
lemma deleteExpiredPred_eq_true {now : Int} {v : URL} :
    deleteExpiredPred now v = true ↔ ∃ t, v.expiresAt = some t ∧ t < now := by
  cases hv : v.expiresAt <;> simp [deleteExpiredPred, hv]

/-- Helper: distinct identities get distinct window keys (the window part
is identical on both sides and cancels). -/
lemma RateLimitKey_inj {i1 i2 : String} {w : Int}
    (h : RateLimitKey i1 w = RateLimitKey i2 w) : i1 = i2 := by
  unfold RateLimitKey at h
  have hd := congrArg String.data h
  simp only [String.data_append, List.append_assoc] at hd
  have h1 := List.append_cancel_left hd
  have h2 := List.append_cancel_right h1
  cases i1
  cases i2
  exact congrArg String.mk h2

/-- Helper: an alphanumeric rune is ASCII, so its UTF-8 encoding is one
byte. -/
lemma utf8Size_of_alnum {c : Char} (h : isAlphanumChar c = true) :
    c.utf8Size = 1 := by
  simp only [isAlphanumChar, Bool.or_eq_true, Bool.and_eq_true,
    decide_eq_true_eq] at h
  have hnat : c.val.toBitVec.toNat ≤ 127 := by
    rcases h with (⟨h1, h2⟩ | ⟨h1, h2⟩) | ⟨h1, h2⟩ <;>
      exact le_trans (BitVec.le_def.mp (UInt32.le_def.mp (Char.le_def.mp h2)))
        (by decide)
  have hcond : c.val ≤ UInt32.ofNatCore 0x7F (by decide) :=
    UInt32.le_def.mpr (BitVec.le_def.mpr hnat)
  unfold Char.utf8Size
  rw [if_pos hcond]

/-- Helper: on an all-alphanumeric rune list the UTF-8 byte count equals
the rune count. -/
lemma utf8ByteLen_of_all_alnum :
    ∀ l : List Char, (∀ c ∈ l, isAlphanumChar c = true) →
      (l.map Char.utf8Size).sum = l.length
  | [], _ => rfl
  | c :: cs, h => by
    simp only [List.map_cons, List.sum_cons, List.length_cons]
    rw [utf8Size_of_alnum (h c (List.mem_cons_self c cs)),
      utf8ByteLen_of_all_alnum cs (fun x hx => h x (List.mem_cons_of_mem c hx))]
    omega

/-- Helper: `goLen` and rune count agree on all-alphanumeric strings. -/
lemma goLen_of_all_alnum {s : String}
    (h : s.data.all isAlphanumChar = true) : goLen s = s.data.length :=
  utf8ByteLen_of_all_alnum s.data (List.all_eq_true.mp h)

/-- Helper: acceptance characterization of `isValidShortCode` in terms of
rune count and the alphanumeric check. -/
lemma isValidShortCode_iff (code : String) (maxLength : Nat) :
    isValidShortCode code maxLength = true ↔
      3 ≤ code.data.length ∧ code.data.length ≤ maxLength ∧
        code.data.all isAlphanumChar = true := by
  constructor
  · intro h
    have hall : code.data.all isAlphanumChar = true := by
      by_contra hno
      unfold isValidShortCode at h
      split at h
      · simp at h
      · exact hno h
    have hlen := goLen_of_all_alnum hall
    unfold isValidShortCode at h
    split at h
    · simp at h
    · next hcond =>
      simp only [Bool.or_eq_true, decide_eq_true_eq, not_or, Nat.not_lt,
        Nat.not_gt_eq] at hcond
      exact ⟨by omega, by omega, hall⟩
  · intro ⟨h3, hm, hall⟩
    have hlen := goLen_of_all_alnum hall
    unfold isValidShortCode
    rw [if_neg]
    · exact hall
    · simp only [Bool.or_eq_true, decide_eq_true_eq, not_or, Nat.not_lt,
        Nat.not_gt_eq]
      omega

/-- Helper: one unfolding step of the generation retry loop. -/
lemma generateUniqueCodeLoop_succ (draws : Nat → List Nat)
    (exCheck : String → Option Bool) (i fuel : Nat) :
    generateUniqueCodeLoop draws exCheck i (fuel + 1) =
      match exCheck (generateRandomCode (draws i)) with
      | none => .error .storeError
      | some true => generateUniqueCodeLoop draws exCheck (i + 1) fuel
      | some false => .ok (generateRandomCode (draws i)) := rfl

/-- Helper: a successful pass of the retry loop returns a candidate the
store reported available, drawn on one of the attempts in budget. -/
lemma generateUniqueCodeLoop_ok (draws : Nat → List Nat)
    (exCheck : String → Option Bool) :
    ∀ fuel i code, generateUniqueCodeLoop draws exCheck i fuel = .ok code →
      exCheck code = some false ∧
        ∃ j, i ≤ j ∧ j < i + fuel ∧ code = generateRandomCode (draws j)
  | 0, _, _, h => by exact nomatch h
  | fuel + 1, i, code, h => by
    rw [generateUniqueCodeLoop_succ] at h
    cases hex : exCheck (generateRandomCode (draws i)) with
    | none => rw [hex] at h; exact nomatch h
    | some b =>
      rw [hex] at h
      cases b with
      | true =>
        obtain ⟨h1, j, hj1, hj2, hj3⟩ :=
          generateUniqueCodeLoop_ok draws exCheck fuel (i + 1) code h
        exact ⟨h1, j, by omega, by omega, hj3⟩
      | false =>
        cases h
        exact ⟨hex, i, le_refl i, by omega, rfl⟩

/-- Helper: if every candidate in the retry budget collides, the loop ends
with the exhaustion error. -/
lemma generateUniqueCodeLoop_exhaust (draws : Nat → List Nat)
    (exCheck : String → Option Bool) :
    ∀ fuel i,
      (∀ j, i ≤ j → j < i + fuel →
        exCheck (generateRandomCode (draws j)) = some true) →
      generateUniqueCodeLoop draws exCheck i fuel = .error .exhausted
  | 0, _, _ => rfl
  | fuel + 1, i, h => by
    rw [generateUniqueCodeLoop_succ, h i (le_refl i) (by omega)]
    exact generateUniqueCodeLoop_exhaust draws exCheck fuel (i + 1)
      (fun j hj1 hj2 => h j (by omega) (by omega))

/-- Helper: every character the byte-to-alphabet map produces lies in the
62-character alphabet. -/
lemma base62Char_mem (b : Nat) : base62Char b ∈ base62Chars.data := by
  have h : ∀ m, m < 62 → base62Chars.data.getD m ('0') ∈ base62Chars.data := by
    decide
  exact h (b % 62) (Nat.mod_lt _ (by decide))

/-- Helper: the code phase under a nonempty custom alias. -/
lemma createCodeRes_alias (cfg : ShortenerConfig) (req : CreateURLRequest)
    (draws : Nat → List Nat) (exCheck : String → Option Bool)
    (halias : req.customAlias ≠ "") :
    createCodeRes cfg req draws exCheck =
      if !isValidShortCode (toLowerStr req.customAlias)
          cfg.MaxCustomLength then
        .error .invalidCode
      else
        .ok (toLowerStr req.customAlias) := by
  unfold createCodeRes
  rw [if_pos halias]

/-- Helper: the code phase with no custom alias. -/
lemma createCodeRes_noalias (cfg : ShortenerConfig) (req : CreateURLRequest)
    (draws : Nat → List Nat) (exCheck : String → Option Bool)
    (halias : req.customAlias = "") :
    createCodeRes cfg req draws exCheck =
      match generateUniqueCode draws exCheck with
      | .error e => .error (.generationFailed e)
      | .ok code => .ok code := by
  unfold createCodeRes
  rw [if_neg (by simp [halias])]

/-- Helper: with a valid URL and a nonempty custom alias, `Create` returns
`invalidCode` exactly when the lower-cased alias fails validation. -/
lemma create_invalidCode_iff (req : CreateURLRequest)
    (draws : Nat → List Nat) (exCheck : String → Option Bool)
    (dbErr : Option String) (now : Int)
    (halias : req.customAlias ≠ "") (hurl : isValidURL req.url = true) :
    URLService.Create defaultShortenerConfig req draws exCheck dbErr now
        = .invalidCode ↔
      isValidShortCode (toLowerStr req.customAlias)
        defaultShortenerConfig.MaxCustomLength = false := by
  unfold URLService.Create
  rw [hurl]
  simp only [Bool.not_true, Bool.false_eq_true, if_false]
  rw [createCodeRes_alias defaultShortenerConfig req draws exCheck halias]
  cases hv : isValidShortCode (toLowerStr req.customAlias)
      defaultShortenerConfig.MaxCustomLength with
  | false => simp
  | true =>
    simp only [Bool.not_true, Bool.false_eq_true, if_false]
    constructor
    · intro h
      exfalso
      revert h
      cases exCheck (toLowerStr req.customAlias) with
      | none => simp
      | some b =>
        cases b
        · cases URLRepository.Create dbErr <;> simp
        · simp
    · intro h
      exact absurd h (by simp)

/-- Helper: with no custom alias, a successful `Create` returns exactly
the code `generateUniqueCode` produced. -/
lemma create_noalias_code (req : CreateURLRequest) (draws : Nat → List Nat)
    (exCheck : String → Option Bool) (dbErr : Option String) (now : Int)
    (code : String) (exp : Option Int)
    (halias : req.customAlias = "")
    (hsucc : URLService.Create defaultShortenerConfig req draws exCheck dbErr
      now = .success code exp) :
    generateUniqueCode draws exCheck = .ok code := by
  unfold URLService.Create at hsucc
  cases hurl : isValidURL req.url with
  | false => rw [hurl] at hsucc; exact nomatch hsucc
  | true =>
    rw [hurl] at hsucc
    simp only [Bool.not_true, Bool.false_eq_true, if_false] at hsucc
    rw [createCodeRes_noalias defaultShortenerConfig req draws exCheck halias]
      at hsucc
    cases hgen : generateUniqueCode draws exCheck with
    | error e => rw [hgen] at hsucc; exact nomatch hsucc
    | ok c =>
      rw [hgen] at hsucc
      dsimp only at hsucc
      cases hex : exCheck c with
      | none => rw [hex] at hsucc; exact nomatch hsucc
      | some b =>
        rw [hex] at hsucc
        cases b with
        | false =>
          cases hw : URLRepository.Create dbErr with
          | ok =>
            rw [hw] at hsucc
            dsimp only at hsucc
            cases hsucc
            rfl
          | alreadyExists => rw [hw] at hsucc; exact nomatch hsucc
          | otherError msg => rw [hw] at hsucc; exact nomatch hsucc
        | true => exact nomatch hsucc

/-- Helper: a matching window at offset `i` gives an infix decomposition. -/
lemma window_infix {s substr : List Char} (i : Nat)
    (h : (s.drop i).take substr.length = substr) :
    ∃ t u, t ++ substr ++ u = s := by
  refine ⟨s.take i, (s.drop i).drop substr.length, ?_⟩
  have h3 : substr ++ (s.drop i).drop substr.length = s.drop i := by
    nth_rewrite 1 [← h]
    exact List.take_append_drop _ _
  rw [List.append_assoc, h3, List.take_append_drop]

/-- Helper: an infix decomposition gives a matching window at the offset
`t.length`, which is within the scan bound. -/
lemma infix_window {s substr t u : List Char} (h : t ++ substr ++ u = s) :
    (s.drop t.length).take substr.length = substr ∧
      t.length + substr.length ≤ s.length := by
  constructor
  · rw [← h, List.append_assoc, List.drop_left, List.take_left]
  · have hl := congrArg List.length h
    simp only [List.length_append] at hl
    omega

/-- Helper: the hand-rolled `contains` decides the infix relation. -/
lemma contains_eq_true_iff {s substr : List Char} :
    contains s substr = true ↔ ∃ t u, t ++ substr ++ u = s := by
  unfold contains containsMiddle
  simp only [Bool.and_eq_true, Bool.or_eq_true, decide_eq_true_eq, beq_iff_eq,
    List.any_eq_true, List.mem_range]
  constructor
  · rintro ⟨hlen, heq | ⟨hgt, (hpre | hsuf) | ⟨i, hi, hwin⟩⟩⟩
    · exact ⟨[], [], by simp [heq]⟩
    · exact window_infix 0 (by simpa using hpre)
    · refine window_infix (s.length - substr.length) ?_
      rw [List.take_of_length_le (by rw [List.length_drop]; omega), hsuf]
    · exact window_infix i hwin
  · rintro ⟨t, u, hs⟩
    obtain ⟨hwin, hbound⟩ := infix_window hs
    have hlen : substr.length ≤ s.length := by omega
    refine ⟨hlen, ?_⟩
    by_cases hEq : s.length = substr.length
    · left
      have ht : t.length = 0 := by omega
      have hu : u.length = 0 := by
        have hl := congrArg List.length hs
        simp only [List.length_append] at hl
        omega
      rw [List.length_eq_zero] at ht hu
      rw [ht, hu] at hs
      simpa using hs.symm
    · right
      exact ⟨by omega, Or.inr ⟨t.length, by omega, hwin⟩⟩

/-! ## Claim theorems and witnesses -/

/-- C1: `Resolve` returns the `Expired` error exactly when the record it
obtained (from cache or store) has an expiration instant strictly in the
past; and whenever it returns a destination URL, the record it obtained is
not expired and the destination is that record's original URL, so an
expired record is never served and a record with no or future expiration
is never rejected as expired. -/
theorem resolve_expired_exactly_when_record_expired (c : CacheLookup)
    (s : StoreLookup) (now : Int) :
    (URLService.Resolve c s now = .expired ↔
      ∃ u, resolvedRecord c s = some u ∧ u.IsExpired now = true) ∧
    (∀ d, URLService.Resolve c s now = .ok d →
      ∃ u, resolvedRecord c s = some u ∧ u.IsExpired now = false ∧
        d = u.originalURL) :=
  ⟨resolve_eq_expired_iff c s now, fun d h => resolve_eq_ok_spec c s now d h⟩

/-- Witness for the C1 theorem: a cache hit on a record expired at `t = 5`
resolved at `now = 10` yields the `Expired` error. -/
theorem resolve_expired_exactly_when_record_expired_witness :
    URLService.Resolve
      (.hit ⟨("abc" : String), ("https://example.com" : String), 0, some 5⟩)
      .notFound 10 = .expired :=
  (resolve_expired_exactly_when_record_expired
    (.hit ⟨"abc", "https://example.com", 0, some 5⟩) .notFound 10).1.mpr
    ⟨⟨"abc", "https://example.com", 0, some 5⟩, rfl, by decide⟩

/-- C2: when the atomic increment yields window count `n = counters key + 1`
for an identity with budget `b`, the middleware allows the request iff
`n ≤ b`, reports `remaining = max 0 (b - n)` and `reset = window start +
window duration`, increments only that identity's window counter, and
leaves every other identity's counter in the same window unchanged. -/
theorem rate_limit_decision (b wStart wSize : Int) (counters : String → Nat)
    (ident : String) :
    ((RateLimiter.Middleware b wStart wSize counters ident true).2.allowed = true
      ↔ (counters (RateLimitKey ident wStart) : Int) + 1 ≤ b) ∧
    (RateLimiter.Middleware b wStart wSize counters ident true).2.remainingHeader
      = some (max 0 (b - ((counters (RateLimitKey ident wStart) : Int) + 1))) ∧
    (RateLimiter.Middleware b wStart wSize counters ident true).2.resetHeader
      = some (wStart + wSize) ∧
    (RateLimiter.Middleware b wStart wSize counters ident true).1
        (RateLimitKey ident wStart)
      = counters (RateLimitKey ident wStart) + 1 ∧
    (∀ ident2, ident2 ≠ ident →
      (RateLimiter.Middleware b wStart wSize counters ident true).1
          (RateLimitKey ident2 wStart)
        = counters (RateLimitKey ident2 wStart)) := by
  refine ⟨?_, ?_, ?_, ?_, ?_⟩
  · simp only [RateLimiter.Middleware, IncrementRateLimit, Bool.not_true,
      Bool.false_eq_true, if_false, decide_eq_true_eq]
    push_cast
    exact Iff.rfl
  · simp only [RateLimiter.Middleware, IncrementRateLimit, Bool.not_true,
      Bool.false_eq_true, if_false]
    push_cast
    rfl
  · rfl
  · simp [RateLimiter.Middleware, IncrementRateLimit]
  · intro ident2 hne
    simp only [RateLimiter.Middleware, IncrementRateLimit, Bool.not_true,
      Bool.false_eq_true, if_false]
    rw [if_neg]
    intro heq
    exact hne (RateLimitKey_inj heq)

/-- Witness for the C2 theorem: a request by identity `a` leaves identity
`b`'s counter in the same window unchanged. -/
theorem rate_limit_decision_witness :
    (RateLimiter.Middleware 5 120 60 (fun _ => 0) ("a") true).1
      (RateLimitKey ("b") 120) = 0 :=
  (rate_limit_decision 5 120 60 (fun _ => 0) ("a")).2.2.2.2 ("b") (by decide)

/-- C3: a cache failure never fails the request — a failing rate-limit
increment lets the request through with the counters untouched (fail
open), and a cache read error during `Resolve` behaves exactly like a
cache miss. -/
theorem cache_failure_fails_open (limit wStart wSize : Int)
    (counters : String → Nat) (ident : String) (s : StoreLookup) (now : Int) :
    ((RateLimiter.Middleware limit wStart wSize counters ident false).2.allowed
        = true ∧
      (RateLimiter.Middleware limit wStart wSize counters ident false).1
        = counters) ∧
    URLService.Resolve .cacheError s now = URLService.Resolve .miss s now :=
  ⟨⟨rfl, rfl⟩, rfl⟩

/-- C4: if a `Create` run would succeed when the store accepts the insert,
then the same run with the store reporting a uniqueness violation returns
`codeTaken` — for custom aliases and generated codes alike. -/
theorem duplicate_insert_is_code_taken (cfg : ShortenerConfig)
    (req : CreateURLRequest) (draws : Nat → List Nat)
    (exCheck : String → Option Bool) (now : Int) (dupMsg : String)
    (code : String) (exp : Option Int)
    (hdup : isDuplicateKeyError dupMsg = true)
    (hok : URLService.Create cfg req draws exCheck none now
      = .success code exp) :
    URLService.Create cfg req draws exCheck (some dupMsg) now
      = .codeTaken := by
  have hw : URLRepository.Create (some dupMsg) = .alreadyExists := by
    simp [URLRepository.Create, hdup]
  unfold URLService.Create at hok ⊢
  rcases Bool.eq_false_or_eq_true (isValidURL req.url) with hurl | hurl
  case inr =>
    rw [hurl] at hok
    exact absurd hok (by simp)
  case inl =>
    rw [hurl] at hok ⊢
    simp only [Bool.not_true, Bool.false_eq_true, if_false] at hok ⊢
    revert hok
    cases hcr : createCodeRes cfg req draws exCheck with
    | error e =>
      intro hok
      cases e <;> exact nomatch hok
    | ok sc =>
      dsimp only
      intro hok
      revert hok
      cases hex : exCheck sc with
      | none => intro hok; exact nomatch hok
      | some b =>
        cases b with
        | true => intro hok; exact nomatch hok
        | false =>
          intro hok
          dsimp only
          rw [hw]

/-- Witness for the C4 theorem: a custom-alias create whose insert hits a
`23505` duplicate-key error returns `codeTaken`. -/
theorem duplicate_insert_is_code_taken_witness :
    URLService.Create defaultShortenerConfig
      ⟨("https://example.com" : String), ("abc" : String), 0⟩
      (fun _ => []) (fun _ => some false) (some ("SQLSTATE 23505")) 0
      = .codeTaken :=
  duplicate_insert_is_code_taken defaultShortenerConfig
    ⟨"https://example.com", "abc", 0⟩ (fun _ => []) (fun _ => some false)
    0 ("SQLSTATE 23505") ("abc") none (by decide) (by decide)

/-- C5: with no custom alias, a valid URL, and byte buffers of the
configured default length (8), every generated candidate is a string of
exactly 8 characters, each obtained as `base62Chars[b % 62]` from one
random byte `b` — hence drawn from the 62-character alphabet — and the
code a successful create returns is one of those candidates. -/
theorem generated_code_shape (req : CreateURLRequest) (draws : Nat → List Nat)
    (exCheck : String → Option Bool) (dbErr : Option String) (now : Int)
    (halias : req.customAlias = "")
    (hlen : ∀ i, (draws i).length = defaultShortenerConfig.DefaultCodeLength) :
    (∀ i, (generateRandomCode (draws i)).length = 8 ∧
      (generateRandomCode (draws i)).data =
        (draws i).map (fun b => base62Chars.data.getD (b % 62) ('0')) ∧
      ∀ c ∈ (generateRandomCode (draws i)).data, c ∈ base62Chars.data) ∧
    (∀ code exp,
      URLService.Create defaultShortenerConfig req draws exCheck dbErr now
        = .success code exp →
      ∃ i, code = generateRandomCode (draws i)) := by
  constructor
  · intro i
    refine ⟨?_, rfl, ?_⟩
    · show ((draws i).map base62Char).length = 8
      rw [List.length_map, hlen i]
      rfl
    · intro c hc
      obtain ⟨b, _, hb⟩ := List.mem_map.mp hc
      rw [← hb]
      exact base62Char_mem b
  · intro code exp hsucc
    have hgen := create_noalias_code req draws exCheck dbErr now code exp
      halias hsucc
    obtain ⟨_, i, _, _, hcode⟩ :=
      generateUniqueCodeLoop_ok draws exCheck 5 0 code hgen
    exact ⟨i, hcode⟩

/-- Witness for the C5 theorem: the byte buffer `[0,...,7]` produces an
8-character candidate. -/
theorem generated_code_shape_witness :
    (generateRandomCode ([0, 1, 2, 3, 4, 5, 6, 7])).length = 8 :=
  ((generated_code_shape ⟨"https://example.com", "", 0⟩
    (fun _ => [0, 1, 2, 3, 4, 5, 6, 7]) (fun _ => some false) none 0
    rfl (fun _ => rfl)).1 0).1

/-- C6: a custom alias is accepted exactly when its lower-cased form has
between 3 and 16 characters all alphanumeric; under a valid URL a
nonempty alias makes `Create` fail with `invalidCode` exactly when that
validation fails; a 2-character alias is rejected while 3- and
16-character alphanumeric aliases pass. -/
theorem custom_alias_validation :
    (∀ a : String,
      isValidShortCode (toLowerStr a) defaultShortenerConfig.MaxCustomLength
          = true ↔
        3 ≤ (toLowerStr a).data.length ∧
          (toLowerStr a).data.length ≤ 16 ∧
          (toLowerStr a).data.all isAlphanumChar = true) ∧
    (∀ (req : CreateURLRequest) (draws : Nat → List Nat)
        (exCheck : String → Option Bool) (dbErr : Option String) (now : Int),
      req.customAlias ≠ "" → isValidURL req.url = true →
      (URLService.Create defaultShortenerConfig req draws exCheck dbErr now
          = .invalidCode ↔
        isValidShortCode (toLowerStr req.customAlias)
          defaultShortenerConfig.MaxCustomLength = false)) ∧
    isValidShortCode (toLowerStr ("ab"))
      defaultShortenerConfig.MaxCustomLength = false ∧
    isValidShortCode (toLowerStr ("abc"))
      defaultShortenerConfig.MaxCustomLength = true ∧
    isValidShortCode (toLowerStr ("a2cdefghijklmnop"))
      defaultShortenerConfig.MaxCustomLength = true := by
  refine ⟨?_, ?_, by decide, by decide, by decide⟩
  · intro a
    exact isValidShortCode_iff (toLowerStr a) 16
  · intro req draws exCheck dbErr now halias hurl
    exact create_invalidCode_iff req draws exCheck dbErr now halias hurl

/-- Witness for the C6 theorem: the 2-character alias `ab` makes `Create`
fail with `invalidCode`. -/
theorem custom_alias_validation_witness :
    URLService.Create defaultShortenerConfig
      ⟨("https://example.com" : String), ("ab" : String), 0⟩
      (fun _ => []) (fun _ => some false) none 0 = .invalidCode :=
  (custom_alias_validation.2.1 ⟨"https://example.com", "ab", 0⟩
    (fun _ => []) (fun _ => some false) none 0 (by decide) (by decide)).mpr
    (by decide)

/-- C7: `ValidateKey` returns a key record exactly when the hash of the
presented secret equals the stored hash of some active key; the record
returned is such a key; with no active matching key the result is empty
(unauthorized).  The lookup compares only stored hashes with the hashed
secret — no stored plaintext exists in the model to compare against. -/
theorem validate_key_iff (hashFn : String → String) (table : List APIKey)
    (raw : String) :
    (∀ k, APIKeyService.ValidateKey hashFn table raw = some k →
      k ∈ table ∧ k.keyHash = hashFn raw ∧ k.isActive = true) ∧
    ((∃ k, APIKeyService.ValidateKey hashFn table raw = some k) ↔
      ∃ k ∈ table, k.keyHash = hashFn raw ∧ k.isActive = true) ∧
    (APIKeyService.ValidateKey hashFn table raw = none ↔
      ∀ k ∈ table, ¬(k.keyHash = hashFn raw ∧ k.isActive = true)) := by
  refine ⟨?_, ?_, ?_⟩
  · intro k hk
    have hm := List.mem_of_find?_eq_some hk
    have hp := List.find?_some hk
    simp only [Bool.and_eq_true, beq_iff_eq] at hp
    exact ⟨hm, hp.1, hp.2⟩
  · constructor
    · intro ⟨k, hk⟩
      have hm := List.mem_of_find?_eq_some hk
      have hp := List.find?_some hk
      simp only [Bool.and_eq_true, beq_iff_eq] at hp
      exact ⟨k, hm, hp.1, hp.2⟩
    · intro ⟨k, hkmem, hhash, hact⟩
      have hsome : (table.find?
          (fun k => k.keyHash == hashFn raw && k.isActive)).isSome = true :=
        List.find?_isSome.mpr ⟨k, hkmem, by simp [hhash, hact]⟩
      obtain ⟨k2, hk2⟩ := Option.isSome_iff_exists.mp hsome
      exact ⟨k2, hk2⟩
  · rw [show APIKeyService.ValidateKey hashFn table raw =
      table.find? (fun k => k.keyHash == hashFn raw && k.isActive) from rfl]
    rw [List.find?_eq_none]
    constructor
    · intro hall k hkmem ⟨hh, ha⟩
      exact hall k hkmem (by simp [hh, ha])
    · intro hall k hkmem hp
      simp only [Bool.and_eq_true, beq_iff_eq] at hp
      exact hall k hkmem ⟨hp.1, hp.2⟩

/-- Witness for the C7 theorem: with one active key whose stored hash is
the hash of the presented secret, validation succeeds. -/
theorem validate_key_iff_witness :
    ∃ k, APIKeyService.ValidateKey (fun s => s)
      [⟨1, ("h1" : String), ("n" : String), 60, true⟩] ("h1") = some k :=
  (validate_key_iff (fun s => s) [⟨1, "h1", "n", 60, true⟩] ("h1")).2.1.mpr
    ⟨⟨1, "h1", "n", 60, true⟩, List.mem_singleton.mpr rfl, rfl, rfl⟩

/-- C8: unique-code generation is a bounded loop of 5 attempts — if every
candidate drawn in the budget collides it ends in the defined exhaustion
error, and any code it does return was reported available by the store
and is one of the (at most 5) drawn candidates.  (Termination holds by
construction: `generateUniqueCode` is a total function.) -/
theorem generation_bounded_retry (draws : Nat → List Nat)
    (exCheck : String → Option Bool) :
    ((∀ i, i < 5 → exCheck (generateRandomCode (draws i)) = some true) →
      generateUniqueCode draws exCheck = .error .exhausted) ∧
    (∀ code, generateUniqueCode draws exCheck = .ok code →
      exCheck code = some false ∧
        ∃ i, i < 5 ∧ code = generateRandomCode (draws i)) := by
  constructor
  · intro h
    exact generateUniqueCodeLoop_exhaust draws exCheck 5 0
      (fun j hj1 hj2 => h j (by omega))
  · intro code h
    obtain ⟨h1, j, hj1, hj2, hj3⟩ :=
      generateUniqueCodeLoop_ok draws exCheck 5 0 code h
    exact ⟨h1, j, by omega, hj3⟩

/-- Witness for the C8 theorem: when the store reports every candidate
taken, generation ends in the exhaustion error. -/
theorem generation_bounded_retry_witness :
    generateUniqueCode (fun _ => [0]) (fun _ => some true)
      = .error .exhausted :=
  (generation_bounded_retry (fun _ => [0]) (fun _ => some true)).1
    (fun _ _ => rfl)

/-- C9: the hand-rolled `contains` decides the contiguous-substring
relation (including the empty substring), and consequently
`isDuplicateKeyError` fires exactly when the error message contains
`23505` or `duplicate key`. -/
theorem contains_decides_substring :
    (∀ s substr : List Char, contains s substr = true ↔
      ∃ t u, t ++ substr ++ u = s) ∧
    (∀ msg : String, isDuplicateKeyError msg = true ↔
      (∃ t u, t ++ (("23505" : String)).data ++ u = msg.data) ∨
      (∃ t u, t ++ (("duplicate key" : String)).data ++ u = msg.data)) := by
  refine ⟨fun s substr => contains_eq_true_iff, fun msg => ?_⟩
  unfold isDuplicateKeyError
  rw [Bool.or_eq_true, contains_eq_true_iff, contains_eq_true_iff]

/-- C10: a record with no expiration instant is never expired, `Resolve`
never rejects it as expired, the periodic sweep never deletes it, and the
sweep deletes exactly the rows with a non-null expiration earlier than
the current time. -/
theorem no_expiry_never_expires (u : URL) (now : Int)
    (h : u.expiresAt = none) :
    u.IsExpired now = false ∧
    (∀ c s, resolvedRecord c s = some u →
      URLService.Resolve c s now ≠ .expired) ∧
    (∀ table : List URL, u ∈ table →
      u ∈ (URLRepository.DeleteExpired table now).1) ∧
    (∀ (table : List URL) (v : URL), v ∈ table →
      (v ∉ (URLRepository.DeleteExpired table now).1 ↔
        ∃ t, v.expiresAt = some t ∧ t < now)) := by
  have hexp : u.IsExpired now = false := by simp [URL.IsExpired, h]
  refine ⟨hexp, ?_, ?_, ?_⟩
  · intro c s hres habs
    rcases (resolve_eq_expired_iff c s now).mp habs with ⟨v, hv, hvexp⟩
    rw [hres] at hv
    cases hv
    rw [hexp] at hvexp
    exact Bool.false_ne_true hvexp
  · intro table hmem
    simp only [URLRepository.DeleteExpired]
    refine List.mem_filter.mpr ⟨hmem, ?_⟩
    simp [deleteExpiredPred, h]
  · intro table v hmem
    simp only [URLRepository.DeleteExpired]
    constructor
    · intro hnot
      refine deleteExpiredPred_eq_true.mp ?_
      by_contra hfalse
      exact hnot (List.mem_filter.mpr ⟨hmem, by simp_all⟩)
    · intro hex habs
      have := (List.mem_filter.mp habs).2
      rw [Bool.not_eq_true', ← Bool.not_eq_true] at this
      exact this (deleteExpiredPred_eq_true.mpr hex)

/-- Witness for the C10 theorem: a concrete record with no expiration is
not expired at `now = 10`. -/
theorem no_expiry_never_expires_witness :
    URL.IsExpired ⟨("abc" : String), ("https://example.com" : String), 0, none⟩
      10 = false :=
  (no_expiry_never_expires ⟨"abc", "https://example.com", 0, none⟩ 10 rfl).1

end Shortener
